import Mathlib

/-!
Verification of the authentication and permission core of the FastAPI admin
backend: JWT issuance and verification (`src/utils/jwt.py`), request
authentication and RBAC permission matching (`src/core/dependency.py`), the
refresh-token endpoint (`src/api/v1/base/base.py`), the department closure
table (`src/repositories/dept.py`), and the sensitive-word filter
(`src/utils/sensitive_word_filter.py`).

Machine integers and datetimes are modelled as `Nat` (POSIX seconds); tokens
are modelled as their signed payloads, since `jwt.encode` with a fixed secret
is injective on payloads and `jwt.decode` recovers exactly the payload of a
well-signed token and rejects everything else.
-/

namespace AdminCore

/-! ## Settings (src/settings/config.py) -/

/-- Access-token TTL in minutes: `JWT_ACCESS_TOKEN_EXPIRE_MINUTES = 60 * 4`. -/
def JWT_ACCESS_TOKEN_EXPIRE_MINUTES : Nat := 60 * 4

/-- Refresh-token TTL in days: `JWT_REFRESH_TOKEN_EXPIRE_DAYS = 7`. -/
def JWT_REFRESH_TOKEN_EXPIRE_DAYS : Nat := 7

/-! ## Token codec (src/utils/jwt.py) -/

/-- Payload of a JWT as produced by this codebase (`schemas/login.py`,
class `JWTPayload`): `user_id`, expiry instant `exp` (modelled in POSIX
seconds), and `token_type` (the string "access" or "refresh"). -/
structure JWTPayload where
  user_id : Nat
  exp : Nat
  token_type : String
deriving DecidableEq

/-- Wire token. `good p` is a token correctly signed with the process
`SECRET_KEY` carrying payload `p`; `malformed` is any string whose signature
check or payload decoding fails. `jwt.encode` is injective on payloads, so
identifying a well-signed token with its payload is faithful. -/
inductive Token where
  | good (payload : JWTPayload)
  | malformed
deriving DecidableEq

/-- Errors raised by the PyJWT layer and by `verify_token`:
`decodeError` (bad signature / undecodable payload, `jwt.DecodeError`),
`expiredSignature` (`jwt.ExpiredSignatureError`), and `invalidToken`
(`jwt.InvalidTokenError`, in particular the token-kind mismatch raised by
`verify_token`). -/
inductive JwtError where
  | decodeError
  | expiredSignature
  | invalidToken
deriving DecidableEq

/-- Behaviour of `jwt.decode(token, SECRET_KEY, algorithms=...)` at time
`now`: a malformed token raises `DecodeError`; a well-signed token whose
`exp` has passed raises `ExpiredSignatureError`; otherwise the payload is
returned. Expiry uses the boundary of spec section 4.1 (fails when
`now >= exp`). -/
def jwtDecode (t : Token) (now : Nat) : Except JwtError JWTPayload :=
  match t with
  | .malformed => .error .decodeError
  | .good payload => if payload.exp ≤ now then .error .expiredSignature else .ok payload

/-- Embedding of `verify_token(token, token_type)` (src/utils/jwt.py lines
39-55): decode first (signature and expiry), then compare the payload
`token_type` to the expected kind; a mismatch raises `InvalidTokenError`.
`ExpiredSignatureError` is re-raised as such, every other decode failure as
`InvalidTokenError`. -/
def verify_token (token : Token) (token_type : String) (now : Nat) : Except JwtError JWTPayload :=
  match jwtDecode token now with
  | .ok payload =>
      if payload.token_type != token_type then .error .invalidToken
      else .ok payload
  | .error .expiredSignature => .error .expiredSignature
  | .error _ => .error .invalidToken

/-- Embedding of `create_access_token(data)` (src/utils/jwt.py lines 9-17):
the payload is copied and `token_type` is forced to "access" before
signing. -/
def create_access_token (data : JWTPayload) : Token :=
  .good { data with token_type := "access" }

/-- Embedding of `create_refresh_token(user_id)` (src/utils/jwt.py lines
20-36): expiry is `now` plus `JWT_REFRESH_TOKEN_EXPIRE_DAYS` days, and
`token_type` is forced to "refresh". -/
def create_refresh_token (user_id : Nat) (now : Nat) : Token :=
  .good { user_id := user_id,
          exp := now + JWT_REFRESH_TOKEN_EXPIRE_DAYS * 86400,
          token_type := "refresh" }

/-- Embedding of `create_token_pair(user_id)` (src/utils/jwt.py lines
58-74): an access token expiring `JWT_ACCESS_TOKEN_EXPIRE_MINUTES` minutes
from now, paired with a refresh token issued at the same instant. -/
def create_token_pair (user_id : Nat) (now : Nat) : Token × Token :=
  let access_token := create_access_token
    { user_id := user_id,
      exp := now + JWT_ACCESS_TOKEN_EXPIRE_MINUTES * 60,
      token_type := "access" }
  (access_token, create_refresh_token user_id now)

/-! ## Data model (src/models/admin.py), restricted to the fields the
authentication and permission core reads. -/

/-- Api row: one granted (method, path) pair; `path` may contain bracketed
placeholders. `summary` and `tags` are never read by the permission check and
are omitted. -/
structure Api where
  method : String
  path : String
deriving DecidableEq

/-- User as read by the auth core: primary key `id`, the `is_active` and
`is_superuser` flags, and the role-derived permission grants. The
many-to-many `roles` relation is modelled as one list of granted `Api` rows
per role, which is exactly what `PermissionControl.has_permission` consumes
(`await role.apis.all()` per role). -/
structure User where
  id : Nat
  username : String
  is_active : Bool
  is_superuser : Bool
  roles : List (List Api)
deriving DecidableEq

/-! ## Request authentication (src/core/dependency.py, AuthControl.is_authed) -/

/-- Result of `AuthControl.is_authed`: on success the user is returned and
the resolved user id is bound into the request context (`CTX_USER_ID.set`);
on failure an HTTP 401 with the given detail is raised. -/
inductive AuthResult where
  | authed (user : User) (ctx_user_id : Nat)
  | unauthorized (detail : String)
deriving DecidableEq

/-- Embedding of `AuthControl.is_authed` (src/core/dependency.py lines
41-69). The token is decoded with plain `jwt.decode` — signature and expiry
only, no inspection of `token_type`; the `user_id` claim is then resolved
against the user table. A missing token raises a 401 inside the `try` block,
which the final `except Exception` handler re-wraps with detail
"Authentication failed"; `DecodeError` maps to "Invalid token" and
`ExpiredSignatureError` to "Login has expired". An unknown `user_id` yields
"Authentication failed". -/
def is_authed (users : List User) (token : Option Token) (now : Nat) : AuthResult :=
  match token with
  | none => .unauthorized "Authentication failed"
  | some t =>
    match jwtDecode t now with
    | .error .decodeError => .unauthorized "Invalid token"
    | .error .expiredSignature => .unauthorized "Login has expired"
    | .error _ => .unauthorized "Authentication failed"
    | .ok payload =>
      match users.find? (fun u => u.id == payload.user_id) with
      | none => .unauthorized "Authentication failed"
      | some user => .authed user payload.user_id

/-! ## Permission matching (src/core/dependency.py, PermissionControl.has_permission)

The check builds, for each granted path, the Python regex
`"^" + re.sub(r"\x7b[^}]+\x7d", r"[^/]+", perm_path) + "$"` and tests the
request path with `re.match`. The granted paths stored by this repository
consist of literal segments, bracketed placeholders, and occasionally a dot;
the embedding below gives Python-regex semantics to exactly those
constituents: a bracketed placeholder becomes one-or-more non-slash
characters, a dot matches any character except a newline, and every other
character matches itself. The trailing `$` of a Python regex also matches
just before a single final newline, which the last pattern of `reMatch`
reproduces. -/

/-- Token of the compiled path matcher. `nonSlashOne` followed by
`nonSlashMany` together encode the substituted class `[^/]+` as
`[^/][^/]*`. -/
inductive RegexTok where
  | lit (c : Char)
  | dot
  | nonSlashOne
  | nonSlashMany
deriving DecidableEq

/-- Scanner for the placeholder regex `\x7b[^}]+\x7d` starting just after an
opening bracket: returns the characters strictly before the first closing
bracket and the remainder after it, or `none` when no closing bracket
follows. -/
def braceSplit : List Char → Option (List Char × List Char)
  | [] => none
  | c :: rest =>
    if c = '}' then some ([], rest)
    else
      match braceSplit rest with
      | some (content, rest') => some (c :: content, rest')
      | none => none

theorem braceSplit_length (l : List Char) (content rest' : List Char)
    (h : braceSplit l = some (content, rest')) : rest'.length < l.length := by
  induction l generalizing content rest' with
  | nil => simp [braceSplit] at h
  | cons c rest ih =>
    by_cases hc : c = '}'
    · simp [braceSplit, hc] at h
      simp [h.2.symm]
    · simp only [braceSplit, if_neg hc] at h
      match hb : braceSplit rest with
      | some (content0, rest0) =>
        rw [hb] at h
        simp at h
        have hlen := ih content0 rest0 hb
        have hr : rest0 = rest' := h.2
        subst hr
        simp
        omega
      | none => rw [hb] at h; simp at h

/-- Compilation of a granted path into matcher tokens, following
`re.sub(r"\x7b[^}]+\x7d", r"[^/]+", perm_path)` (dependency.py line 109): at
an opening bracket, the leftmost match of the placeholder regex needs at
least one character strictly before the next closing bracket; on a match the
placeholder is replaced by the `[^/]+` class, otherwise the bracket stays a
literal. A dot keeps its regex meaning; every other character is a
literal. -/
def toToks : List Char → List RegexTok
  | [] => []
  | c :: rest =>
    if c = '{' then
      match hb : braceSplit rest with
      | some (content, rest') =>
        if content.isEmpty then .lit '{' :: toToks rest
        else .nonSlashOne :: .nonSlashMany :: toToks rest'
      | none => .lit '{' :: toToks rest
    else if c = '.' then .dot :: toToks rest
    else .lit c :: toToks rest
termination_by l => l.length
decreasing_by
  all_goals simp
  all_goals (have hlen := braceSplit_length rest content rest' hb; omega)

/-- Anchored matcher semantics for the compiled pattern `"^" ++ toks ++ "$"`
under `re.match`: the whole path must be consumed, except that the final `$`
also accepts one trailing newline. -/
def reMatch : List RegexTok → List Char → Bool
  | [], xs => xs.isEmpty || xs == ['\n']
  | .lit c :: ts, x :: xs => c == x && reMatch ts xs
  | .lit _ :: _, [] => false
  | .dot :: ts, x :: xs => !(x == '\n') && reMatch ts xs
  | .dot :: _, [] => false
  | .nonSlashOne :: ts, x :: xs => !(x == '/') && reMatch ts xs
  | .nonSlashOne :: _, [] => false
  | .nonSlashMany :: ts, xs =>
      reMatch ts xs ||
        (match xs with
         | [] => false
         | x :: xs' => !(x == '/') && reMatch (.nonSlashMany :: ts) xs')
termination_by ts xs => (xs.length, ts.length)

/-- Test of a request path against a granted path pattern: compile the
pattern and run the anchored matcher. -/
def pathPatternMatches (perm_path path : String) : Bool :=
  reMatch (toToks perm_path.data) path.data

/-- Outcome of `PermissionControl.has_permission`: either the request
proceeds or an HTTP 403 with the given detail is raised. -/
inductive PermDecision where
  | allowed
  | forbidden (detail : String)
deriving DecidableEq

/-- Embedding of `PermissionControl.has_permission` (src/core/dependency.py
lines 74-117): a superuser is allowed outright; a user with no roles is
rejected with "The user is not bound to a role"; otherwise the granted
(method, path) pairs of all roles are concatenated (`sum(apis, [])`) and the
request is allowed as soon as one pair has an exactly equal method and a
matching path pattern, else rejected with a message naming the method and
path. -/
def has_permission (current_user : User) (method path : String) : PermDecision :=
  if current_user.is_superuser then .allowed
  else if current_user.roles.isEmpty then .forbidden "The user is not bound to a role"
  else
    let permission_apis := (current_user.roles.flatten).map (fun api => (api.method, api.path))
    if permission_apis.any (fun mp => method == mp.1 && pathPatternMatches mp.2 path)
    then .allowed
    else .forbidden ("Permission denied method:" ++ method ++ " path:" ++ path)

/-! ## Department hierarchy (src/repositories/dept.py)

The database is modelled as explicit row lists; each `@atomic` repository
method becomes a function from the old state to the new state (or a
`NotFound` error where `self.get` would raise `DoesNotExist`). -/

/-- Dept row restricted to the fields the closure-table logic reads:
primary key `id`, `parent_id` (0 = root) and the `is_deleted` soft-delete
flag. `name`, `desc` and `order` only feed the tree view and are omitted. -/
structure Dept where
  id : Nat
  parent_id : Nat
  is_deleted : Bool
deriving DecidableEq

/-- DeptClosure row `(ancestor, descendant, level)` (src/models/admin.py
lines 87-90). -/
structure DeptClosureRow where
  ancestor : Nat
  descendant : Nat
  level : Nat
deriving DecidableEq

/-- Database state seen by the department repository. -/
structure DeptState where
  depts : List Dept
  closures : List DeptClosureRow
deriving DecidableEq

/-- Modelled from the spec: `CRUDBase.get` (core/crud.py is absent from the
snapshot). Spec section 4.4 has create fail with `NotFound` when the
referenced department is absent, so the lookup is a primary-key search whose
callers treat `none` as `NotFound`. -/
def findDept (st : DeptState) (id : Nat) : Option Dept :=
  st.depts.find? (fun d => d.id == id)

/-- Repository failure: `DoesNotExist` raised by a primary-key lookup,
surfaced as HTTP 404. -/
inductive RepoError where
  | notFound
deriving DecidableEq

/-- Embedding of `DeptRepository.update_dept_closure(obj)`
(src/repositories/dept.py lines 44-65): read the closure rows whose
descendant is `obj.parent_id`, append one row
`(ancestor, obj.id, level + 1)` for each of them, then append the self row
`(obj.id, obj.id, 0)`. -/
def update_dept_closure_rows (closures : List DeptClosureRow) (obj : Dept) : List DeptClosureRow :=
  let parent_depts := closures.filter (fun r => r.descendant == obj.parent_id)
  closures ++ (parent_depts.map (fun r => ⟨r.ancestor, obj.id, r.level + 1⟩))
           ++ [⟨obj.id, obj.id, 0⟩]

/-- Embedding of `DeptRepository.create_dept(obj_in)` (src/repositories/
dept.py lines 67-73): a nonzero parent must exist, then the row is inserted
and its closure rows are built. The auto-increment primary key is passed
explicitly as `id`. -/
def create_dept (st : DeptState) (id parent_id : Nat) : Except RepoError DeptState :=
  if parent_id != 0 && (findDept st parent_id).isNone then .error .notFound
  else
    let new_obj : Dept := ⟨id, parent_id, false⟩
    .ok { depts := st.depts ++ [new_obj],
          closures := update_dept_closure_rows st.closures new_obj }

/-- Embedding of `DeptRepository.update_dept(obj_in)` (src/repositories/
dept.py lines 75-85). When the parent changes, every closure row naming the
node as ancestor or as descendant is deleted and `update_dept_closure` is
re-run — on `dept_obj`, the row object fetched before the update, whose
`parent_id` is still the old parent; the new `parent_id` is written to the
department row only afterwards. -/
def update_dept (st : DeptState) (id new_parent_id : Nat) : Except RepoError DeptState :=
  match findDept st id with
  | none => .error .notFound
  | some dept_obj =>
    let closures1 :=
      if dept_obj.parent_id != new_parent_id then
        let c := (st.closures.filter (fun r => !(r.ancestor == id))).filter
                   (fun r => !(r.descendant == id))
        update_dept_closure_rows c dept_obj
      else st.closures
    .ok { depts := st.depts.map
            (fun d => if d.id == id then { d with parent_id := new_parent_id } else d),
          closures := closures1 }

/-- Embedding of `DeptRepository.delete_dept(dept_id)` (src/repositories/
dept.py lines 87-94): soft-delete the row, then delete exactly the closure
rows whose descendant is the node. -/
def delete_dept (st : DeptState) (dept_id : Nat) : Except RepoError DeptState :=
  match findDept st dept_id with
  | none => .error .notFound
  | some _ =>
    .ok { depts := st.depts.map
            (fun d => if d.id == dept_id then { d with is_deleted := true } else d),
          closures := st.closures.filter (fun r => !(r.descendant == dept_id)) }

/-! ## Refresh endpoint (src/api/v1/base/base.py, refresh_access_token) -/

/-- Modelled from the spec: `user_repository.get` (repositories/user.py and
core/crud.py are absent from the snapshot). Spec section 4.1 has the refresh
flow re-check that "the user still exists", and the handler itself tests
`if not user or not user.is_active`, so the lookup is modelled as returning
the user or nothing. -/
def user_repository_get (users : List User) (id : Nat) : Option User :=
  users.find? (fun u => u.id == id)

/-- Outcome of the `/refresh_token` handler: a new token pair
(`Success` body), a `Fail` body carrying an application error code, or a
raised `HTTPException`. -/
inductive RefreshOutcome where
  | success (access_token refresh_token : Token) (expires_in : Nat)
  | failResponse (code : Nat) (msg : String)
  | httpError (status_code : Nat) (detail : String)
deriving DecidableEq

/-- Embedding of `refresh_access_token` (src/api/v1/base/base.py lines
93-120): verify the presented token with expected kind "refresh"; re-check
the user exists and is active, answering `Fail(code=401)` otherwise; on
success mint a fresh pair via `create_token_pair`. Any exception inside the
body — in particular a verification failure — is re-raised as HTTP 401
"Token is invalid or expired". -/
def refresh_access_token (users : List User) (refresh_token : Token) (now : Nat) :
    RefreshOutcome :=
  match verify_token refresh_token "refresh" now with
  | .error _ => .httpError 401 "Token is invalid or expired"
  | .ok payload =>
    match user_repository_get users payload.user_id with
    | none => .failResponse 401 "User does not exist or has been disabled"
    | some user =>
      if !user.is_active then .failResponse 401 "User does not exist or has been disabled"
      else
        let pair := create_token_pair user.id now
        .success pair.1 pair.2 (JWT_ACCESS_TOKEN_EXPIRE_MINUTES * 60)

/-! ## Sensitive-word filter (src/utils/sensitive_word_filter.py)

The pyahocorasick automaton is built from
`word.strip().lower() -> (idx, word.strip())` for every configured word with
nonempty strip; `add_word` on a repeated key overwrites the earlier value.
`automaton.iter(text_lower)` enumerates occurrences of the added keys in
increasing end-position order, and at a given end position the reached state
node — the longest dictionary suffix — is reported first;
`contains_sensitive_word` returns on the first reported occurrence. The scan
below reproduces exactly that: positions left to right, and at each position
the longest (latest-added on equal keys) key ending there. -/

/-- Whitespace stripped by the Python `str.strip()` default (ASCII range;
the configured word lists contain no exotic Unicode spacing). -/
def pyWhitespace (c : Char) : Bool :=
  c == ' ' || c == '\t' || c == '\n' || c == '\r' || c == '\x0b' || c == '\x0c'

/-- Embedding of `word.strip()`. -/
def stripString (s : String) : String :=
  ⟨((s.data.dropWhile pyWhitespace).reverse.dropWhile pyWhitespace).reverse⟩

/-- Embedding of `str.lower()`, character-wise (ASCII-faithful). -/
def lowerString (s : String) : String :=
  ⟨s.data.map Char.toLower⟩

/-- State of a `SensitiveWordFilter` after construction: `enabled` holds
exactly when `ENABLE_SENSITIVE_WORD_FILTER` was set and `_build_automaton`
succeeded (a build failure clears `self.enabled`, and `self.automaton` is
populated exactly in the enabled case); `words` is
`settings.SENSITIVE_WORDS`. -/
structure SWFilter where
  enabled : Bool
  words : List String

/-- Dictionary the automaton is built from (`_build_automaton`, lines
36-46): for every word with nonempty strip, the pair of its lowercased
stripped form (the match key) and its stripped original-cased form (the
reported value). -/
def automatonEntries (f : SWFilter) : List (String × String) :=
  f.words.filterMap (fun w =>
    let s := stripString w
    if s == "" then none else some (lowerString s, s))

/-- Prefix test on character lists. -/
def isPrefixChars : List Char → List Char → Bool
  | [], _ => true
  | _ :: _, [] => false
  | a :: as, b :: bs => a == b && isPrefixChars as bs

/-- Substring occurrence test: the needle occurs contiguously in the
haystack. -/
def occursChars (needle : List Char) : List Char → Bool
  | [] => needle.isEmpty
  | c :: rest => isPrefixChars needle (c :: rest) || occursChars needle rest

/-- Key ending at the current scan position, where `rpre` is the reversed
list of characters consumed so far: the reversed key must be a prefix of
`rpre`. -/
def keyEndsHere (key : String) (rpre : List Char) : Bool :=
  isPrefixChars key.data.reverse rpre

/-- Entry reported by the automaton at the current position: among the
entries whose key ends here, the longest one, later additions overriding
earlier ones of the same key (the `add_word` overwrite). -/
def bestAt (entries : List (String × String)) (rpre : List Char) :
    Option (String × String) :=
  (entries.filter (fun e => keyEndsHere e.1 rpre)).foldl
    (fun acc e =>
      match acc with
      | none => some e
      | some b => if b.1.length ≤ e.1.length then some e else some b) none

/-- Scan of `automaton.iter(text_lower)` taken to the first reported
occurrence: characters are consumed left to right, and the first position at
which some key ends yields that key's stored original-cased word. -/
def scanText (entries : List (String × String)) : List Char → List Char → Option String
  | _, [] => none
  | rpre, c :: rest =>
    match bestAt entries (c :: rpre) with
    | some e => some e.2
    | none => scanText entries (c :: rpre) rest

/-- Embedding of `SensitiveWordFilter.contains_sensitive_word(text)`
(src/utils/sensitive_word_filter.py lines 56-86): short-circuit to
`(False, None)` when the filter is disabled, the automaton is absent or the
text is empty; otherwise lowercase the text, scan it, and report the first
match with its original-cased word. -/
def contains_sensitive_word (f : SWFilter) (text : String) : Bool × Option String :=
  if !f.enabled || text == "" then (false, none)
  else
    match scanText (automatonEntries f) [] (lowerString text).data with
    | some w => (true, some w)
    | none => (false, none)

/-! ## Concrete instances used by the claim theorems below -/

/-- Sample user for the C1 counterexample. -/
def c1User : User :=
  { id := 1, username := "admin", is_active := true, is_superuser := false, roles := [] }

/-- Sample user for the C1 witness. -/
def c1WitnessUser : User :=
  { id := 7, username := "bob", is_active := true, is_superuser := false, roles := [] }

/-- Deactivated user for the C5 witness. -/
def c5User : User :=
  { id := 5, username := "carol", is_active := false, is_superuser := false, roles := [] }

/-- Superuser with zero roles for the C6 witness. -/
def c6User : User :=
  { id := 10, username := "root", is_active := true, is_superuser := true, roles := [] }

/-- Role-less non-superuser for the C7 witness. -/
def c7User : User :=
  { id := 12, username := "dave", is_active := true, is_superuser := false, roles := [] }

/-- User holding exactly the items pattern, for the C3 witness. -/
def c3User : User :=
  { id := 13, username := "frank", is_active := true, is_superuser := false,
    roles := [[{ method := "GET", path := "/api/v1/items/{id}" }]] }

/-- Single-grant user whose granted path contains a regex dot. -/
def c10User : User :=
  { id := 11, username := "eve", is_active := true, is_superuser := false,
    roles := [[{ method := "GET", path := "/api/v1/a.b" }]] }

/-- Two-department state for the C8 witness: 2 is a child of 1. -/
def c8State : DeptState :=
  { depts := [⟨1, 0, false⟩, ⟨2, 1, false⟩],
    closures := [⟨1, 1, 0⟩, ⟨2, 2, 0⟩, ⟨1, 2, 1⟩] }

/-- State reached by creating department 1 under the root, department 2
under the root, and department 3 under department 1. -/
def c2State : DeptState :=
  { depts := [⟨1, 0, false⟩, ⟨2, 0, false⟩, ⟨3, 1, false⟩],
    closures := [⟨1, 1, 0⟩, ⟨2, 2, 0⟩, ⟨1, 3, 1⟩, ⟨3, 3, 0⟩] }

/-- State actually produced by `update_dept` when department 3 is moved
from parent 1 to parent 2. -/
def c2After : DeptState :=
  { depts := [⟨1, 0, false⟩, ⟨2, 0, false⟩, ⟨3, 2, false⟩],
    closures := [⟨1, 1, 0⟩, ⟨2, 2, 0⟩, ⟨1, 3, 1⟩, ⟨3, 3, 0⟩] }

/-- Concrete filter configuration for the C9 witness. -/
def c9Filter : SWFilter := { enabled := true, words := ["Badword", " Evil "] }

/-! ## Claim C1 — request authentication and token kind -/

/-- C1 counterexample: a well-signed, unexpired token whose signed payload
carries `token_type = "refresh"` is NOT rejected by `AuthControl.is_authed`
— it authenticates the request and binds the user, because `is_authed`
decodes with plain `jwt.decode` and never inspects `token_type`. This
refutes the claim that such a request fails with an Unauthorized outcome. -/
theorem c1_counterexample :
    is_authed [c1User]
      (some (.good { user_id := 1, exp := 1000, token_type := "refresh" })) 0
      = .authed c1User 1 := by
  rfl

/-- C1 (amended): `AuthControl.is_authed` does not inspect `token_type` at
all — every well-signed, unexpired bearer token whose `user_id` resolves to
an existing user authenticates the request, whether its kind is "access",
"refresh" or anything else; token kind is enforced only by `verify_token`
(used by the refresh endpoint), not by request authentication. -/
theorem c1_theorem (users : List User) (payload : JWTPayload) (now : Nat) (user : User)
    (hexp : now < payload.exp)
    (hfind : users.find? (fun u => u.id == payload.user_id) = some user) :
    is_authed users (some (.good payload)) now = .authed user payload.user_id := by
  simp [is_authed, jwtDecode, Nat.not_le.mpr hexp, hfind]

/-- Witness for C1, instantiating the amended theorem on a concrete
refresh-kind token. -/
theorem c1_witness :
    (3 < 500) ∧
    is_authed [c1WitnessUser]
      (some (.good { user_id := 7, exp := 500, token_type := "refresh" })) 3
      = .authed c1WitnessUser 7 :=
  ⟨by decide,
   c1_theorem [c1WitnessUser] { user_id := 7, exp := 500, token_type := "refresh" }
     3 c1WitnessUser (by decide) (by decide)⟩

/-! ## Claim C4 — token pair issuance and verification -/

/-- C4: for every `user_id` (and issuance instant), `create_token_pair`
returns two distinct tokens; the first verifies with expected kind "access"
and the second with expected kind "refresh", each yielding back the same
`user_id` in its payload; and verifying either token with the other kind
fails at every time instant. -/
theorem c4_theorem (user_id now : Nat) :
    (create_token_pair user_id now).1 ≠ (create_token_pair user_id now).2 ∧
    verify_token (create_token_pair user_id now).1 "access" now =
      .ok { user_id := user_id, exp := now + JWT_ACCESS_TOKEN_EXPIRE_MINUTES * 60,
            token_type := "access" } ∧
    verify_token (create_token_pair user_id now).2 "refresh" now =
      .ok { user_id := user_id, exp := now + JWT_REFRESH_TOKEN_EXPIRE_DAYS * 86400,
            token_type := "refresh" } ∧
    (∀ t : Nat, ∃ e : JwtError,
      verify_token (create_token_pair user_id now).1 "refresh" t = .error e) ∧
    (∀ t : Nat, ∃ e : JwtError,
      verify_token (create_token_pair user_id now).2 "access" t = .error e) := by
  have ha : ¬ (now + JWT_ACCESS_TOKEN_EXPIRE_MINUTES * 60 ≤ now) := by
    simp [JWT_ACCESS_TOKEN_EXPIRE_MINUTES]
  have hr : ¬ (now + JWT_REFRESH_TOKEN_EXPIRE_DAYS * 86400 ≤ now) := by
    simp [JWT_REFRESH_TOKEN_EXPIRE_DAYS]
  refine ⟨?_, ?_, ?_, ?_, ?_⟩
  · simp [create_token_pair, create_access_token, create_refresh_token]
  · simp [create_token_pair, create_access_token, verify_token, jwtDecode, ha]
  · simp [create_token_pair, create_refresh_token, verify_token, jwtDecode, hr]
  · intro t
    by_cases hle : now + JWT_ACCESS_TOKEN_EXPIRE_MINUTES * 60 ≤ t
    · exact ⟨.expiredSignature,
        by simp [create_token_pair, create_access_token, verify_token, jwtDecode, hle]⟩
    · exact ⟨.invalidToken,
        by simp [create_token_pair, create_access_token, verify_token, jwtDecode, hle]⟩
  · intro t
    by_cases hle : now + JWT_REFRESH_TOKEN_EXPIRE_DAYS * 86400 ≤ t
    · exact ⟨.expiredSignature,
        by simp [create_token_pair, create_refresh_token, verify_token, jwtDecode, hle]⟩
    · exact ⟨.invalidToken,
        by simp [create_token_pair, create_refresh_token, verify_token, jwtDecode, hle]⟩

/-! ## Claim C5 — refresh re-checks user existence and activity -/

/-- C5: a refresh call presenting a well-signed, unexpired refresh token
fails with a 401 outcome and issues no token pair when the token's user no
longer exists or is inactive, and issues a fresh pair when the user exists
and is active. The user lookup is spec-modelled (`user_repository.get` is
not in the snapshot); the handler answers `Fail(code=401, ...)` in both
rejection branches. -/
theorem c5_theorem (users : List User) (payload : JWTPayload) (now : Nat)
    (htype : payload.token_type = "refresh") (hexp : now < payload.exp) :
    (user_repository_get users payload.user_id = none →
      refresh_access_token users (.good payload) now
        = .failResponse 401 "User does not exist or has been disabled") ∧
    (∀ user, user_repository_get users payload.user_id = some user →
      user.is_active = false →
      refresh_access_token users (.good payload) now
        = .failResponse 401 "User does not exist or has been disabled") ∧
    (∀ user, user_repository_get users payload.user_id = some user →
      user.is_active = true →
      refresh_access_token users (.good payload) now
        = .success (create_token_pair user.id now).1 (create_token_pair user.id now).2
            (JWT_ACCESS_TOKEN_EXPIRE_MINUTES * 60)) := by
  have hv : verify_token (.good payload) "refresh" now = .ok payload := by
    simp [verify_token, jwtDecode, Nat.not_le.mpr hexp, htype]
  refine ⟨?_, ?_, ?_⟩
  · intro h
    simp [refresh_access_token, hv, h]
  · intro user hu hact
    simp [refresh_access_token, hv, hu, hact]
  · intro user hu hact
    simp [refresh_access_token, hv, hu, hact]

/-- Witness for C5: a concrete deactivated user whose outstanding,
still-valid refresh token is rejected at refresh time. -/
theorem c5_witness :
    ("refresh" = "refresh" ∧ (0 : Nat) < 100) ∧
    (user_repository_get [c5User] 5 = none →
      refresh_access_token [c5User] (.good { user_id := 5, exp := 100, token_type := "refresh" }) 0
        = .failResponse 401 "User does not exist or has been disabled") ∧
    (∀ user, user_repository_get [c5User] 5 = some user →
      user.is_active = false →
      refresh_access_token [c5User] (.good { user_id := 5, exp := 100, token_type := "refresh" }) 0
        = .failResponse 401 "User does not exist or has been disabled") ∧
    (∀ user, user_repository_get [c5User] 5 = some user →
      user.is_active = true →
      refresh_access_token [c5User] (.good { user_id := 5, exp := 100, token_type := "refresh" }) 0
        = .success (create_token_pair user.id 0).1 (create_token_pair user.id 0).2
            (JWT_ACCESS_TOKEN_EXPIRE_MINUTES * 60)) :=
  ⟨⟨rfl, by decide⟩,
   c5_theorem [c5User] { user_id := 5, exp := 100, token_type := "refresh" } 0 rfl (by decide)⟩

/-! ## Claim C6 — superuser short-circuit -/

/-- C6: a superuser is allowed every (method, path) pair; the roles list is
never consulted. -/
theorem c6_theorem (u : User) (method path : String) (h : u.is_superuser = true) :
    has_permission u method path = .allowed := by
  simp [has_permission, h]

/-- Witness for C6: a concrete superuser with zero assigned roles is granted
an arbitrary pair. -/
theorem c6_witness :
    c6User.is_superuser = true ∧
    has_permission c6User "DELETE" "/api/v1/anything/at/all" = .allowed :=
  ⟨rfl, c6_theorem c6User "DELETE" "/api/v1/anything/at/all" rfl⟩

/-! ## Claim C7 — non-superuser without roles -/

/-- Append on strings acts as append on their character lists. -/
theorem string_data_append (a b : String) : (a ++ b).data = a.data ++ b.data := by
  cases a; cases b; rfl

/-- Distinctness of the two 403 details of `has_permission`: the no-role
message never coincides with a permission-denied message, whatever method
and path the latter names. -/
theorem not_bound_msg_ne (m p : String) :
    "The user is not bound to a role" ≠ "Permission denied method:" ++ m ++ " path:" ++ p := by
  intro h
  have hd := congrArg String.data h
  rw [string_data_append, string_data_append, string_data_append] at hd
  have h1 : "Permission denied method:".data = 'P' :: "ermission denied method:".data := rfl
  have h2 : "The user is not bound to a role".data = 'T' :: "he user is not bound to a role".data := rfl
  rw [h1, h2] at hd
  simp [List.cons_append] at hd

/-- C7: a non-superuser with an empty role set is denied every (method,
path) pair with the Forbidden detail "The user is not bound to a role", and
that detail differs from every denial message of the shape produced when
roles exist but no granted pair matches. -/
theorem c7_theorem (u : User) (method path : String)
    (hs : u.is_superuser = false) (hr : u.roles = []) :
    has_permission u method path = .forbidden "The user is not bound to a role" ∧
    ∀ m p : String,
      "The user is not bound to a role" ≠ "Permission denied method:" ++ m ++ " path:" ++ p := by
  constructor
  · simp [has_permission, hs, hr]
  · exact not_bound_msg_ne

/-- Witness for C7 at a concrete user and request. -/
theorem c7_witness :
    (c7User.is_superuser = false ∧ c7User.roles = []) ∧
    (has_permission c7User "GET" "/api/v1/users/list"
        = .forbidden "The user is not bound to a role" ∧
      ∀ m p : String,
        "The user is not bound to a role" ≠ "Permission denied method:" ++ m ++ " path:" ++ p) :=
  ⟨⟨rfl, rfl⟩, c7_theorem c7User "GET" "/api/v1/users/list" rfl rfl⟩

/-! ## Claim C3 — placeholder pattern matching -/

/-- Reduction of `has_permission` for a non-superuser with at least one
role: the decision is the first-match scan over the concatenated granted
pairs. -/
theorem has_permission_flatten (u : User) (method path : String)
    (hs : u.is_superuser = false) (hne : u.roles.isEmpty = false) :
    has_permission u method path =
      (if (u.roles.flatten.map (fun api => (api.method, api.path))).any
          (fun mp => method == mp.1 && pathPatternMatches mp.2 path)
       then .allowed
       else .forbidden ("Permission denied method:" ++ method ++ " path:" ++ path)) := by
  simp [has_permission, hs, hne]

/-- C3: a non-superuser whose roles grant exactly the pair
(GET, /api/v1/items/\x7bid\x7d) is allowed GET /api/v1/items/42 and
GET /api/v1/items/abc, denied POST /api/v1/items/42 (method must match
exactly) and denied GET /api/v1/items/42/extra (the placeholder matches a
single non-empty path segment and the pattern is anchored at both ends). -/
theorem c3_theorem (u : User)
    (hs : u.is_superuser = false)
    (hj : u.roles.flatten = [{ method := "GET", path := "/api/v1/items/{id}" }]) :
    has_permission u "GET" "/api/v1/items/42" = .allowed ∧
    has_permission u "GET" "/api/v1/items/abc" = .allowed ∧
    has_permission u "POST" "/api/v1/items/42"
      = .forbidden "Permission denied method:POST path:/api/v1/items/42" ∧
    has_permission u "GET" "/api/v1/items/42/extra"
      = .forbidden "Permission denied method:GET path:/api/v1/items/42/extra" := by
  have hne : u.roles.isEmpty = false := by
    cases hr : u.roles with
    | nil => rw [hr] at hj; simp at hj
    | cons a l => rfl
  refine ⟨?_, ?_, ?_, ?_⟩ <;>
    rw [has_permission_flatten u _ _ hs hne, hj] <;>
    simp [pathPatternMatches, toToks, braceSplit, reMatch]

/-- Witness for C3 at a concrete single-grant user. -/
theorem c3_witness :
    (c3User.is_superuser = false ∧
      c3User.roles.flatten = [{ method := "GET", path := "/api/v1/items/{id}" }]) ∧
    (has_permission c3User "GET" "/api/v1/items/42" = .allowed ∧
      has_permission c3User "GET" "/api/v1/items/abc" = .allowed ∧
      has_permission c3User "POST" "/api/v1/items/42"
        = .forbidden "Permission denied method:POST path:/api/v1/items/42" ∧
      has_permission c3User "GET" "/api/v1/items/42/extra"
        = .forbidden "Permission denied method:GET path:/api/v1/items/42/extra") :=
  ⟨⟨rfl, rfl⟩, c3_theorem c3User rfl rfl⟩

/-! ## Claim C10 — regex metacharacters outside placeholders -/

/-- C10: granted paths are used as regular expressions after placeholder
substitution only, so a non-placeholder metacharacter keeps its regex
meaning: the non-superuser granted exactly GET /api/v1/a.b is allowed
GET /api/v1/aXb, a request path differing from the grant in a
non-placeholder character. -/
theorem c10_theorem :
    c10User.is_superuser = false ∧
    "/api/v1/a.b" ≠ "/api/v1/aXb" ∧
    has_permission c10User "GET" "/api/v1/aXb" = .allowed := by
  refine ⟨rfl, by decide, ?_⟩
  simp [has_permission, c10User, pathPatternMatches, toToks, braceSplit, reMatch]

/-! ## Claim C8 — soft delete and closure-row removal -/

/-- C8: deleting an existing department soft-deletes exactly that row
(every other department row survives unchanged, and the row count is
preserved) and removes exactly the closure rows whose descendant is the
node; rows where the node appears only as ancestor remain. -/
theorem c8_theorem (st : DeptState) (dept_id : Nat) (d0 : Dept)
    (h : findDept st dept_id = some d0) :
    ∃ st', delete_dept st dept_id = .ok st' ∧
      (∀ r : DeptClosureRow, r ∈ st'.closures ↔ r ∈ st.closures ∧ r.descendant ≠ dept_id) ∧
      (∀ d ∈ st.depts, d.id ≠ dept_id → d ∈ st'.depts) ∧
      (∀ d ∈ st.depts, d.id = dept_id → ({ d with is_deleted := true } : Dept) ∈ st'.depts) ∧
      st'.depts.length = st.depts.length := by
  refine ⟨{ depts := st.depts.map
              (fun d => if d.id == dept_id then { d with is_deleted := true } else d),
            closures := st.closures.filter (fun r => !(r.descendant == dept_id)) },
          ?_, ?_, ?_, ?_, ?_⟩
  · unfold delete_dept
    rw [h]
  · intro r
    simp [List.mem_filter]
  · intro d hd hne
    exact List.mem_map.mpr ⟨d, hd, by simp [hne]⟩
  · intro d hd heq
    exact List.mem_map.mpr ⟨d, hd, by simp [heq]⟩
  · simp

/-- Witness for C8: deleting department 2 of the concrete state. -/
theorem c8_witness :
    findDept c8State 2 = some ⟨2, 1, false⟩ ∧
    (∃ st', delete_dept c8State 2 = .ok st' ∧
      (∀ r : DeptClosureRow, r ∈ st'.closures ↔ r ∈ c8State.closures ∧ r.descendant ≠ 2) ∧
      (∀ d ∈ c8State.depts, d.id ≠ 2 → d ∈ st'.depts) ∧
      (∀ d ∈ c8State.depts, d.id = 2 → ({ d with is_deleted := true } : Dept) ∈ st'.depts) ∧
      st'.depts.length = c8State.depts.length) :=
  ⟨rfl, c8_theorem c8State 2 ⟨2, 1, false⟩ rfl⟩

/-! ## Claim C2 — closure rebuild on parent change -/

/-- C2 (code bug): department 3 is created under parent 1 and then updated
to parent 2. The department row does receive `parent_id = 2`, but the
rebuilt closure rows are computed from the row object fetched before the
save — whose `parent_id` is still 1 — so the closure table still contains
the stale row (1, 3, 1) linking 3 to its old parent and no row (2, 3, 1)
for the new parent, contradicting the claimed post-state. -/
theorem c2_theorem :
    ((create_dept { depts := [], closures := [] } 1 0).bind
        (fun s => create_dept s 2 0)).bind (fun s => create_dept s 3 1) = .ok c2State ∧
    update_dept c2State 3 2 = .ok c2After ∧
    findDept c2After 3 = some ⟨3, 2, false⟩ ∧
    DeptClosureRow.mk 1 3 1 ∈ c2After.closures ∧
    DeptClosureRow.mk 2 3 1 ∉ c2After.closures :=
  ⟨rfl, rfl, rfl, by decide, by decide⟩

/-! ## Claim C9 — sensitive-word scan

Correctness of the first-match scan: `contains_sensitive_word` answers
`(false, none)` exactly when no dictionary key occurs in the lowercased
text, and otherwise reports the stripped original-cased word of an entry
whose lowercased key does occur. -/

/-- Characterization of the prefix test. -/
theorem isPrefixChars_iff (a b : List Char) :
    isPrefixChars a b = true ↔ ∃ t, b = a ++ t := by
  induction a generalizing b with
  | nil => simp [isPrefixChars]
  | cons x as ih =>
    cases b with
    | nil => simp [isPrefixChars]
    | cons y bs =>
      simp only [isPrefixChars, Bool.and_eq_true, beq_iff_eq, ih]
      constructor
      · rintro ⟨hxy, t, ht⟩
        exact ⟨t, by simp [hxy, ht]⟩
      · rintro ⟨t, ht⟩
        simp only [List.cons_append, List.cons.injEq] at ht
        exact ⟨ht.1.symm, t, ht.2⟩

/-- Characterization of substring occurrence. -/
theorem occursChars_iff (k h : List Char) :
    occursChars k h = true ↔ ∃ pre suf, h = pre ++ k ++ suf := by
  induction h with
  | nil =>
    constructor
    · intro hk
      have hknil : k = [] := by simpa [occursChars, List.isEmpty_iff] using hk
      exact ⟨[], [], by simp [hknil]⟩
    · rintro ⟨pre, suf, hps⟩
      rcases List.append_eq_nil.mp hps.symm with ⟨h1, h2⟩
      rcases List.append_eq_nil.mp h1 with ⟨h3, h4⟩
      simp [occursChars, List.isEmpty_iff, h4]
  | cons c rest ih =>
    simp only [occursChars, Bool.or_eq_true, ih, isPrefixChars_iff]
    constructor
    · rintro (⟨t, ht⟩ | ⟨pre, suf, hps⟩)
      · exact ⟨[], t, by simp [ht]⟩
      · exact ⟨c :: pre, suf, by simp [hps]⟩
    · rintro ⟨pre, suf, hps⟩
      cases pre with
      | nil => exact Or.inl ⟨suf, by simpa using hps⟩
      | cons a pre0 =>
        have hps' : c = a ∧ rest = pre0 ++ k ++ suf := by simpa using hps
        exact Or.inr ⟨pre0, suf, hps'.2⟩

/-- Accumulator preservation for a fold that never drops to `none`. -/
theorem foldl_choice_acc {α : Type} (g : Option α → α → Option α)
    (hg : ∀ acc e, g acc e ≠ none) :
    ∀ (l : List α) (acc : Option α), l.foldl g acc = none → acc = none := by
  intro l
  induction l with
  | nil =>
    intro acc h
    simpa using h
  | cons a l0 ih =>
    intro acc h
    have hnone := ih (g acc a) (by simpa using h)
    exact absurd hnone (hg acc a)

/-- Emptiness of a choice fold over a list. -/
theorem foldl_choice_none {α : Type} (l : List α)
    (g : Option α → α → Option α)
    (hg : ∀ acc e, g acc e ≠ none) :
    l.foldl g none = none ↔ l = [] := by
  cases l with
  | nil => simp
  | cons a l0 =>
    simp only [List.foldl_cons]
    constructor
    · intro h
      exact absurd (foldl_choice_acc g hg l0 (g none a) h) (hg none a)
    · intro h
      cases h

/-- The automaton reports nothing at a position exactly when no dictionary
key ends there. -/
theorem bestAt_eq_none (entries : List (String × String)) (rpre : List Char) :
    bestAt entries rpre = none ↔
      ∀ e ∈ entries, keyEndsHere e.1 rpre = false := by
  unfold bestAt
  rw [foldl_choice_none]
  · constructor
    · intro h e he
      by_contra hk
      have hmem : e ∈ entries.filter (fun e => keyEndsHere e.1 rpre) := by
        rw [List.mem_filter]
        exact ⟨he, by simpa using hk⟩
      rw [h] at hmem
      cases hmem
    · intro h
      rw [List.filter_eq_nil_iff]
      intro e he
      simp [h e he]
  · intro acc e
    cases acc with
    | none => simp
    | some b =>
      by_cases hb : b.1.length ≤ e.1.length <;> simp [hb]

/-- An entry reported by the automaton belongs to the dictionary and its key
ends at the current position. -/
theorem bestAt_some_mem (entries : List (String × String)) (rpre : List Char)
    (e : String × String) (h : bestAt entries rpre = some e) :
    e ∈ entries ∧ keyEndsHere e.1 rpre = true := by
  have hmem : e ∈ entries.filter (fun e => keyEndsHere e.1 rpre) := by
    unfold bestAt at h
    have hfold : ∀ (l : List (String × String)) (acc : Option (String × String)),
        l.foldl (fun acc e =>
          match acc with
          | none => some e
          | some b => if b.1.length ≤ e.1.length then some e else some b) acc = some e →
        (acc = some e ∨ e ∈ l) := by
      intro l
      induction l with
      | nil =>
        intro acc h0
        exact Or.inl h0
      | cons a l0 ih =>
        intro acc h0
        rcases ih _ h0 with h1 | h1
        · cases acc with
          | none =>
            simp at h1
            exact Or.inr (by simp [h1])
          | some b =>
            by_cases hb : b.1.length ≤ a.1.length
            · simp [hb] at h1
              exact Or.inr (by simp [h1])
            · simp [hb] at h1
              exact Or.inl (by simp [h1])
        · exact Or.inr (List.mem_cons_of_mem _ h1)
    rcases hfold _ _ h with h1 | h1
    · cases h1
    · exact h1
  rw [List.mem_filter] at hmem
  exact ⟨hmem.1, by simpa using hmem.2⟩

/-- The scan returns nothing exactly when no dictionary key ends inside any
nonempty prefix of the remaining text. -/
theorem scanText_eq_none_iff (entries : List (String × String)) :
    ∀ (rest rpre : List Char),
      scanText entries rpre rest = none ↔
        ∀ p q : List Char, rest = p ++ q → p ≠ [] →
          bestAt entries (p.reverse ++ rpre) = none := by
  intro rest
  induction rest with
  | nil =>
    intro rpre
    constructor
    · intro _ p q hpq hp
      exact absurd (List.append_eq_nil.mp hpq.symm).1 hp
    · intro _
      rfl
  | cons c rest0 ih =>
    intro rpre
    constructor
    · intro h p q hpq hp
      cases hb : bestAt entries (c :: rpre) with
      | some e =>
        rw [scanText, hb] at h
        cases h
      | none =>
        rw [scanText, hb] at h
        cases p with
        | nil => exact absurd rfl hp
        | cons a p0 =>
          have hpq0 : c = a ∧ rest0 = p0 ++ q := by simpa using hpq
          rcases hpq0 with ⟨hca, hrest⟩
          subst hca
          by_cases hp0 : p0 = []
          · subst hp0
            simpa using hb
          · have hmain := (ih (c :: rpre)).mp h p0 q hrest hp0
            simpa [List.append_assoc] using hmain
    · intro hall
      have hb : bestAt entries (c :: rpre) = none := by
        have hc := hall [c] rest0 (by simp) (by simp)
        simpa using hc
      rw [scanText, hb]
      refine (ih (c :: rpre)).mpr ?_
      intro p0 q h1 h2
      have hc := hall (c :: p0) q (by simp [h1]) (by simp)
      simpa [List.append_assoc] using hc

/-- A reported word comes from a dictionary entry whose key ends inside some
nonempty prefix of the scanned text. -/
theorem scanText_some (entries : List (String × String)) :
    ∀ (rest rpre : List Char) (w : String),
      scanText entries rpre rest = some w →
      ∃ e ∈ entries, w = e.2 ∧ ∃ p q : List Char, rest = p ++ q ∧ p ≠ [] ∧
        keyEndsHere e.1 (p.reverse ++ rpre) = true := by
  intro rest
  induction rest with
  | nil =>
    intro rpre w h
    cases h
  | cons c rest0 ih =>
    intro rpre w h
    cases hb : bestAt entries (c :: rpre) with
    | some e =>
      rw [scanText, hb] at h
      have hee := bestAt_some_mem entries (c :: rpre) e hb
      refine ⟨e, hee.1, by simpa using h.symm, [c], rest0, by simp, by simp, ?_⟩
      simpa using hee.2
    | none =>
      rw [scanText, hb] at h
      rcases ih (c :: rpre) w h with ⟨e, he, hw, p0, q, hsplit, hp0, hkey⟩
      refine ⟨e, he, hw, c :: p0, q, by simp [hsplit], by simp, ?_⟩
      simpa [List.append_assoc] using hkey

/-- A key ends at the reversed prefix exactly when it is a suffix of the
consumed prefix. -/
theorem keyEndsHere_reverse_iff (k : String) (p : List Char) :
    keyEndsHere k p.reverse = true ↔ ∃ s, p = s ++ k.data := by
  unfold keyEndsHere
  rw [isPrefixChars_iff]
  constructor
  · rintro ⟨t, ht⟩
    refine ⟨t.reverse, ?_⟩
    have hrev := congrArg List.reverse ht
    simpa using hrev
  · rintro ⟨s, hs⟩
    exact ⟨s.reverse, by simp [hs]⟩

/-- Dictionary keys are nonempty: only words with nonempty strip are added,
and lowercasing preserves length. -/
theorem automatonEntries_key_ne_nil (f : SWFilter) :
    ∀ e ∈ automatonEntries f, e.1.data ≠ [] := by
  intro e he
  unfold automatonEntries at he
  rcases List.mem_filterMap.mp he with ⟨w, hw, hval⟩
  by_cases hs : stripString w == ""
  · simp [hs] at hval
  · simp only [hs, Bool.false_eq_true, if_false, Option.some.injEq] at hval
    have hsne : stripString w ≠ "" := by simpa using hs
    have hdata : (stripString w).data ≠ [] := by
      intro hd
      apply hsne
      cases hstr : stripString w with
      | mk d =>
        rw [hstr] at hd
        simp at hd
        rw [hd]
    rw [← hval]
    simp [lowerString, hdata]

/-- C9: with the filter enabled and the automaton built,
`contains_sensitive_word` answers `(false, none)` on every text in which no
configured (stripped, lowercased) term occurs, and on every text containing
a configured term in any letter casing — occurrence of the lowercased key in
the lowercased text — it answers `(true, t)` where `t` is the original-cased
(stripped) configured term whose occurrence was found. -/
theorem c9_theorem (f : SWFilter) (text : String) (hen : f.enabled = true) :
    ((∀ e ∈ automatonEntries f, occursChars e.1.data (lowerString text).data = false) →
        contains_sensitive_word f text = (false, none)) ∧
    ((∃ e ∈ automatonEntries f, occursChars e.1.data (lowerString text).data = true) →
        ∃ e ∈ automatonEntries f,
          contains_sensitive_word f text = (true, some e.2) ∧
          occursChars e.1.data (lowerString text).data = true) := by
  constructor
  · intro hno
    by_cases ht : text = ""
    · simp [contains_sensitive_word, ht]
    · have htb : (text == "") = false := by simpa using ht
      have hscan : scanText (automatonEntries f) [] (lowerString text).data = none := by
        rw [scanText_eq_none_iff]
        intro p q hpq hp
        rw [bestAt_eq_none]
        intro e he
        by_contra hk
        have hk2 : keyEndsHere e.1 (p.reverse ++ []) = true := by simpa using hk
        rw [List.append_nil] at hk2
        rcases (keyEndsHere_reverse_iff e.1 p).mp hk2 with ⟨s, hs⟩
        have hocc : occursChars e.1.data (lowerString text).data = true := by
          rw [occursChars_iff]
          exact ⟨s, q, by rw [hpq, hs]⟩
        rw [hno e he] at hocc
        cases hocc
      simp [contains_sensitive_word, hen, htb, hscan]
  · rintro ⟨e, he, hocc⟩
    have hkne := automatonEntries_key_ne_nil f e he
    rcases (occursChars_iff _ _).mp hocc with ⟨pre, suf, hps⟩
    have htlne : (lowerString text).data ≠ [] := by
      rw [hps]
      intro hnil
      rcases List.append_eq_nil.mp hnil with ⟨h1, _⟩
      rcases List.append_eq_nil.mp h1 with ⟨_, h3⟩
      exact hkne h3
    have ht : text ≠ "" := by
      intro h0
      apply htlne
      rw [h0]
      rfl
    have htb : (text == "") = false := by simpa using ht
    cases hscan : scanText (automatonEntries f) [] (lowerString text).data with
    | none =>
      exfalso
      have hall := (scanText_eq_none_iff _ _ _).mp hscan
      have hpne : pre ++ e.1.data ≠ [] := by
        intro h0
        exact hkne (List.append_eq_nil.mp h0).2
      have hbnone := hall (pre ++ e.1.data) suf hps hpne
      rw [List.append_nil, bestAt_eq_none] at hbnone
      have hkey := hbnone e he
      have hkey2 : keyEndsHere e.1 (pre ++ e.1.data).reverse = true :=
        (keyEndsHere_reverse_iff e.1 (pre ++ e.1.data)).mpr ⟨pre, rfl⟩
      rw [hkey] at hkey2
      cases hkey2
    | some w =>
      rcases scanText_some (automatonEntries f) (lowerString text).data [] w hscan with
        ⟨e2, he2, hw, p, q, hsplit, hpne2, hkey⟩
      rw [List.append_nil] at hkey
      rcases (keyEndsHere_reverse_iff e2.1 p).mp hkey with ⟨s, hs⟩
      refine ⟨e2, he2, ?_, ?_⟩
      · simp [contains_sensitive_word, hen, htb, hscan, hw]
      · rw [occursChars_iff]
        exact ⟨s, q, by rw [hsplit, hs]⟩

/-- Witness for C9 on a concrete enabled filter. -/
theorem c9_witness :
    c9Filter.enabled = true ∧
    (((∀ e ∈ automatonEntries c9Filter,
          occursChars e.1.data (lowerString "completely normal text").data = false) →
        contains_sensitive_word c9Filter "completely normal text" = (false, none)) ∧
      ((∃ e ∈ automatonEntries c9Filter,
          occursChars e.1.data (lowerString "completely normal text").data = true) →
        ∃ e ∈ automatonEntries c9Filter,
          contains_sensitive_word c9Filter "completely normal text" = (true, some e.2) ∧
          occursChars e.1.data (lowerString "completely normal text").data = true)) :=
  ⟨rfl, c9_theorem c9Filter "completely normal text" rfl⟩

end AdminCore
